import Mathlib

/-!
Verification of the environment-capture and trampoline-publication core of
`expose-pixi-apps` (`src/main.py`).

Python strings are embedded as `List Char` (named `Str` below); Python
dictionaries (which preserve insertion order) are embedded as association
lists; `None`-or-value results are `Option`; raised exceptions are the
`Except.error` branch of an `Except` result carrying the exception message.
The external YAML and JSON libraries are modelled at the level of structured
values (a YAML loader is a parameter; JSON files are `JsonVal` trees), and
`pathlib.PurePosixPath` is modelled by its documented parse/join/render
behaviour (the POSIX exactly-two-leading-slashes root corner case is elided,
as no path in this development exercises it).
-/

/-- Embedding type for Python `str`: a list of characters. -/
abbrev Str := List Char

/-- Value of `os.pathsep` on POSIX (the platforms the tool supports). -/
def pathsep : Char := ':'

/-- PATH-diff region and split, from `expose_entry` (src/main.py lines
140-143): `new_path = hook_path[: len(hook_path) - len(current_path)] if
hook_path.endswith(current_path) else hook_path` followed by the list
comprehension `(p for p in new_path.split(os.pathsep) if p)`. -/
def path_diff_list (hook_path current_path : Str) : List Str :=
  let new_path :=
    if current_path.isSuffixOf hook_path then
      hook_path.take (hook_path.length - current_path.length)
    else hook_path
  (new_path.splitOn pathsep).filter (fun p => !p.isEmpty)

/-- The `path_diff` string written into the configuration record:
`os.pathsep.join(...)` of the segments above (src/main.py line 143). -/
def path_diff (hook_path current_path : Str) : Str :=
  [pathsep].intercalate (path_diff_list hook_path current_path)

/-- Test whether a POSIX path string is absolute (starts with `/`),
as `pathlib` determines the root during parsing. -/
def pAbs : Str → Bool
  | [] => false
  | c :: _ => c == '/'

/-- Component segments of a POSIX path string as `pathlib` parses them:
split on `/`, dropping empty segments and `.` segments. -/
def pSegs (s : Str) : List Str :=
  (s.splitOn '/').filter (fun seg => !seg.isEmpty && seg != ".".data)

/-- Internal state of a `pathlib.PurePosixPath`: whether it is anchored at
the root, and its parsed component segments. -/
structure PurePath where
  absolute : Bool
  parts : List Str
deriving DecidableEq, Repr

/-- Parse a string into a `PurePath`, as `Path(s)` does. -/
def parsePath (s : Str) : PurePath := ⟨pAbs s, pSegs s⟩

/-- The `/` operator of `pathlib`: joining an absolute segment discards the
left operand; joining a relative segment appends its parsed components. -/
def PurePath.join (p : PurePath) (seg : Str) : PurePath :=
  if pAbs seg then ⟨true, pSegs seg⟩ else ⟨p.absolute, p.parts ++ pSegs seg⟩

/-- Render a `PurePath` back to a string, as `str(path)` does: a leading `/`
for absolute paths, components joined by `/`, and `.` for an empty relative
path. -/
def renderPath (p : PurePath) : Str :=
  if p.absolute then '/' :: ['/'].intercalate p.parts
  else if p.parts.isEmpty then ".".data
  else ['/'].intercalate p.parts

/-- The executable path recorded for one app:
`str(Path(conda_prefix) / 'bin' / app)` (src/main.py line 155). -/
def exePath (conda_pfx app : Str) : Str :=
  renderPath (((parsePath conda_pfx).join "bin".data).join app)

/-- Embedding of `_EXCLUDE_EXACT = {'PATH'}` (src/main.py line 113). -/
def EXCLUDE_EXACT : List Str := ["PATH".data]

/-- Embedding of `_EXCLUDE_PREFIXES = ('PIXI_',)` (src/main.py line 114). -/
def EXCLUDE_PREFIXES : List Str := ["PIXI_".data]

/-- Embedding of `_should_exclude` (src/main.py lines 117-122). -/
def should_exclude (key : Str) (extra : Option (List Str)) : Bool :=
  if EXCLUDE_EXACT.contains key then true
  else if EXCLUDE_PREFIXES.any (fun p => p.isPrefixOf key) then true
  else
    match extra with
    | none => false
    | some ex => ex.contains key

/-- The filtered environment published into every configuration record:
`{k: v for k, v in env_vars.items() if not _should_exclude(k, exclude_env_vars)}`
(src/main.py line 147). -/
def filter_env (env_vars : List (Str × Str)) (extra : Option (List Str)) :
    List (Str × Str) :=
  env_vars.filter (fun kv => !should_exclude kv.1 extra)

/-- Validated exposure request, the dictionary built by `parse_input`
(src/main.py lines 21-46): mandatory `git` and `apps`, optional `ref`,
`environment` and `exclude-env-vars` keys. -/
structure Entry where
  git : Str
  apps : List Str
  ref : Option Str
  environment : Option Str
  exclude_env_vars : Option (List Str)
deriving DecidableEq, Repr

/-- Result of `yaml.safe_load` on one input, at the granularity the code
inspects it: either a YAML sequence (whose elements the code only ever
renders to strings) or any non-sequence value. -/
inductive Yaml where
  | ylist : List Str → Yaml
  | yother : Str → Yaml
deriving DecidableEq, Repr

/-- Raw named inputs read by `parse_input` via `os.environ.get(..., '')`;
an absent input is indistinguishable from the empty string, exactly as in
the code. -/
structure Inputs where
  input_git : Str
  input_apps : Str
  input_ref : Str
  input_environment : Str
  input_exclude_env_vars : Str
deriving DecidableEq, Repr

/-- Embedding of `parse_input` (src/main.py lines 21-46); `yamlLoad` stands
for the external `yaml.safe_load`. -/
def parse_input (yamlLoad : Str → Yaml) (i : Inputs) : Except Str Entry :=
  if i.input_git.isEmpty then .error "'git' input is required".data
  else if i.input_apps.isEmpty then .error "'apps' input is required".data
  else
    match yamlLoad i.input_apps with
    | .yother _ => .error "'apps' input must be a YAML list".data
    | .ylist apps =>
      let ref := if i.input_ref.isEmpty then none else some i.input_ref
      let environment :=
        if i.input_environment.isEmpty then none else some i.input_environment
      let excl :=
        if i.input_exclude_env_vars.isEmpty then none
        else
          match yamlLoad i.input_exclude_env_vars with
          | .ylist l => some l
          | .yother _ => none
      .ok ⟨i.input_git, apps, ref, environment, excl⟩

/-- Message of the `RuntimeError` raised when the captured environment has
no usable `CONDA_PREFIX` (src/main.py line 137). -/
def conda_missing_error (environment : Str) : Str :=
  "CONDA_PREFIX not found in shell-hook output for environment '".data
    ++ environment ++ "'".data

/-- Per-executable persisted record, the dictionary
`{'exe': ..., 'path_diff': ..., 'env': ...}` (src/main.py line 156). -/
structure TrampolineConfig where
  exe : Str
  path_diff : Str
  env : List (Str × Str)
deriving DecidableEq, Repr, Inhabited

/-- Environment-delta and record-construction core of `expose_entry`
(src/main.py lines 127 and 133-156), taking as inputs the captured shell-hook
environment (`hook['environment_variables']`) and the ambient
`os.environ.get('PATH', '')` of the invoking process, and returning the
per-app records the publication loop writes, or the raised error message. -/
def expose_configs (entry : Entry) (env_vars : List (Str × Str))
    (ambient_path : Str) : Except Str (List (Str × TrampolineConfig)) :=
  let environment := entry.environment.getD "default".data
  match env_vars.lookup "CONDA_PREFIX".data with
  | none => .error (conda_missing_error environment)
  | some conda_pfx =>
    if conda_pfx.isEmpty then .error (conda_missing_error environment)
    else
      let hook_path := (env_vars.lookup "PATH".data).getD []
      let pd := path_diff hook_path ambient_path
      let filtered_env := filter_env env_vars entry.exclude_env_vars
      .ok (entry.apps.map (fun app =>
        (app, { exe := exePath conda_pfx app, path_diff := pd,
                env := filtered_env })))

/-- JSON values at the granularity the configuration files use: strings and
string-keyed objects. The external `json.dumps`/`json.loads` pair is modelled
at this level (its serialization is deterministic and invertible). -/
inductive JsonVal where
  | jstr : Str → JsonVal
  | jobj : List (Str × JsonVal) → JsonVal
deriving Repr

/-- JSON value written for one record:
`{'exe': str(exe_path), 'path_diff': path_diff, 'env': filtered_env}`
(src/main.py lines 156 and 159). -/
def configToJson (c : TrampolineConfig) : JsonVal :=
  .jobj [("exe".data, .jstr c.exe), ("path_diff".data, .jstr c.path_diff),
         ("env".data, .jobj (c.env.map (fun kv => (kv.1, .jstr kv.2))))]

/-- Read a JSON object back as a string-to-string mapping; fails on any
non-string value. -/
def envStrs : List (Str × JsonVal) → Option (List (Str × Str))
  | [] => some []
  | (k, .jstr v) :: rest => (envStrs rest).map (fun l => (k, v) :: l)
  | _ => none

/-- Parse a written configuration file back into its record, as the external
dispatch binary reads it: the `exe` and `path_diff` string fields and the
`env` object field. -/
def configOfJson : JsonVal → Option TrampolineConfig
  | .jobj fields =>
    match fields.lookup "exe".data, fields.lookup "path_diff".data,
          fields.lookup "env".data with
    | some (.jstr e), some (.jstr pd), some (.jobj envf) =>
      match envStrs envf with
      | some l => some ⟨e, pd, l⟩
      | none => none
    | _, _, _ => none
  | _ => none

/-- Filesystem state touched by the publication loop: the contents of
configuration files (as parsed JSON values, since `json.dumps` is a
deterministic injection) and the inode each bin-directory name is hard-linked
to. -/
structure FS where
  files : Str → Option JsonVal
  links : Str → Option Nat

/-- Pointwise map update: the effect of overwriting one file or of
`unlink(missing_ok=True)` followed by `os.link`. -/
def setMap {α : Type} (m : Str → Option α) (k : Str) (v : α) :
    Str → Option α :=
  fun p => if p = k then some v else m p

/-- Configuration-file path for one app:
`str(config_dir / f'{app}.json')` with
`config_dir = bin_dir / 'trampoline_configuration'` (src/main.py lines
149-150 and 154). -/
def config_file_path (bin_dir app : Str) : Str :=
  renderPath (((parsePath bin_dir).join "trampoline_configuration".data).join
    (app ++ ".json".data))

/-- Hard-link path for one app: `str(bin_dir / app)` (src/main.py line 161). -/
def link_file_path (bin_dir app : Str) : Str :=
  renderPath ((parsePath bin_dir).join app)

/-- Publication loop of `expose_entry` (src/main.py lines 153-163): for each
app, write its configuration file and hard-link the shared trampoline binary
(of inode `tramp_inode`) under the app's name. -/
def publish_configs (bin_dir : Str) (tramp_inode : Nat) :
    List (Str × TrampolineConfig) → FS → FS
  | [], fs => fs
  | item :: rest, fs =>
    publish_configs bin_dir tramp_inode rest
      { files := setMap fs.files (config_file_path bin_dir item.1)
          (configToJson item.2),
        links := setMap fs.links (link_file_path bin_dir item.1) tramp_inode }

/-- Whole pure effect of `expose_entry` after the shell hook is captured
(src/main.py lines 133-163): either the raised error (in which case nothing
is written) or the filesystem state after publication. -/
def expose_entry (entry : Entry) (env_vars : List (Str × Str))
    (ambient_path bin_dir : Str) (tramp_inode : Nat) (fs : FS) :
    Except Str FS :=
  (expose_configs entry env_vars ambient_path).map
    (fun cfgs => publish_configs bin_dir tramp_inode cfgs fs)

/-! Helper lemmas about the PATH-diff core. -/

/-- When the hook PATH literally extends the ambient PATH, the slice keeps
exactly the extension. -/
theorem path_diff_list_append (pre amb : Str) :
    path_diff_list (pre ++ amb) amb
      = (pre.splitOn pathsep).filter (fun p => !p.isEmpty) := by
  have hs : amb.isSuffixOf (pre ++ amb) = true :=
    List.isSuffixOf_iff_suffix.mpr (List.suffix_append pre amb)
  have hlen : (pre ++ amb).length - amb.length = pre.length := by simp
  have htake : (pre ++ amb).take pre.length = pre := List.take_left pre amb
  simp [path_diff_list, hs, hlen, htake]

/-- When the ambient PATH is not a trailing substring, the whole hook PATH is
kept. -/
theorem path_diff_list_of_not_suffix (hook amb : Str) (h : ¬ amb <:+ hook) :
    path_diff_list hook amb
      = (hook.splitOn pathsep).filter (fun p => !p.isEmpty) := by
  have hs : amb.isSuffixOf hook = false := by
    cases hb : amb.isSuffixOf hook
    · rfl
    · exact absurd (List.isSuffixOf_iff_suffix.mp hb) h
  simp [path_diff_list, hs]

/-- Claim C1: for every captured (hook) PATH string and every ambient PATH
string, if the hook PATH ends with the ambient PATH then the diff region is
the hook PATH with that trailing substring removed, otherwise it is the
entire hook PATH; the region is split on the path-list separator, empty
segments are discarded, and order is preserved, so ambient "A:B" with hook
"X:Y:A:B" yields ["X","Y"] and ambient "A:B" with hook "Z:Q" yields
["Z","Q"]. -/
theorem c1_path_diff_algorithm :
    (∀ hook amb pre : Str, hook = pre ++ amb →
      path_diff_list hook amb = (pre.splitOn pathsep).filter (fun p => !p.isEmpty))
    ∧ (∀ hook amb : Str, ¬ amb <:+ hook →
      path_diff_list hook amb = (hook.splitOn pathsep).filter (fun p => !p.isEmpty))
    ∧ path_diff_list "X:Y:A:B".data "A:B".data = ["X".data, "Y".data]
    ∧ path_diff_list "Z:Q".data "A:B".data = ["Z".data, "Q".data] := by
  refine ⟨?_, path_diff_list_of_not_suffix, by decide, by decide⟩
  intro hook amb pre h
  subst h
  exact path_diff_list_append pre amb

/-- Witness for C1 at the suffix-match example of the claim. -/
theorem c1_path_diff_algorithm_witness :
    path_diff_list "X:Y:A:B".data "A:B".data
      = (("X:Y:".data).splitOn pathsep).filter (fun p => !p.isEmpty) :=
  c1_path_diff_algorithm.1 "X:Y:A:B".data "A:B".data "X:Y:".data (by decide)

/-- Claim C10: the suffix test of the PATH diff is a raw string comparison,
not aligned to separator boundaries: whenever the hook PATH is s ++ ambient
with s non-empty and not ending in the separator, the removed region is
exactly the ambient string, so the delta can contain a truncated directory
segment; concretely hook "fooA:B" with ambient "A:B" yields ["foo"]. -/
theorem c10_suffix_match_not_segment_aligned :
    (∀ amb s : Str, s ≠ [] → s.getLast? ≠ some pathsep →
      path_diff_list (s ++ amb) amb
        = (s.splitOn pathsep).filter (fun p => !p.isEmpty))
    ∧ path_diff_list "fooA:B".data "A:B".data = ["foo".data] :=
  ⟨fun amb s _ _ => path_diff_list_append s amb, by decide⟩

/-- Witness for C10 at the concrete truncating input of the claim. -/
theorem c10_suffix_match_not_segment_aligned_witness :
    path_diff_list ("foo".data ++ "A:B".data) "A:B".data
      = (("foo".data).splitOn pathsep).filter (fun p => !p.isEmpty) :=
  c10_suffix_match_not_segment_aligned.1 "A:B".data "foo".data
    (by decide) (by decide)

/-- Unfolding of `_should_exclude` into the three suppression conditions of
the specification. -/
theorem should_exclude_iff (k : Str) (extra : Option (List Str)) :
    should_exclude k extra = true ↔
      k = "PATH".data ∨ "PIXI_".data <+: k
        ∨ ∃ ex, extra = some ex ∧ k ∈ ex := by
  unfold should_exclude EXCLUDE_EXACT EXCLUDE_PREFIXES
  by_cases h1 : k = "PATH".data
  · simp [h1]
  · by_cases h2 : "PIXI_".data <+: k
    · have hp : List.isPrefixOf "PIXI_".data k = true :=
        List.isPrefixOf_iff_prefix.mpr h2
      simp [h1, h2, hp, Ne.symm h1]
    · have hp : List.isPrefixOf "PIXI_".data k = false := by
        cases hx : List.isPrefixOf "PIXI_".data k
        · rfl
        · exact absurd (List.isPrefixOf_iff_prefix.mp hx) h2
      cases extra with
      | none => simp [h1, h2, hp, Ne.symm h1, List.contains, List.elem_iff]
      | some ex => simp [h1, h2, hp, Ne.symm h1, List.contains, List.elem_iff]

/-- Membership in the filtered environment is membership in the captured
environment minus the suppression conditions. -/
theorem mem_filter_env_iff (env : List (Str × Str)) (extra : Option (List Str))
    (k v : Str) :
    (k, v) ∈ filter_env env extra ↔
      (k, v) ∈ env ∧
        ¬(k = "PATH".data ∨ "PIXI_".data <+: k
          ∨ ∃ ex, extra = some ex ∧ k ∈ ex) := by
  rw [filter_env, List.mem_filter]
  constructor
  · rintro ⟨hm, hf⟩
    refine ⟨hm, fun hc => ?_⟩
    have ht := (should_exclude_iff k extra).mpr hc
    rw [ht] at hf
    exact Bool.noConfusion hf
  · rintro ⟨hm, hc⟩
    refine ⟨hm, ?_⟩
    cases hb : should_exclude k extra
    · rfl
    · exact absurd ((should_exclude_iff k extra).mp hb) hc

/-- Claim C2: a variable k is suppressed from the published environment if
and only if k is PATH, or k starts with the reserved PIXI_ provisioning
namespace, or the exclusion set was supplied and contains k; and the
environment {"PATH": "...", "PIXI_FOO": "x", "HOME": "/h", "FOO": "1"} with
exclusion set {"HOME"} is filtered to exactly {"FOO": "1"}. -/
theorem c2_variable_filtering :
    (∀ (env : List (Str × Str)) (extra : Option (List Str)) (k v : Str),
      (k, v) ∈ filter_env env extra ↔
        (k, v) ∈ env ∧
          ¬(k = "PATH".data ∨ "PIXI_".data <+: k
            ∨ ∃ ex, extra = some ex ∧ k ∈ ex))
    ∧ filter_env
        [("PATH".data, "p".data), ("PIXI_FOO".data, "x".data),
         ("HOME".data, "/h".data), ("FOO".data, "1".data)]
        (some ["HOME".data])
      = [("FOO".data, "1".data)] :=
  ⟨mem_filter_env_iff, by decide⟩

/-- Witness for C2: the kept variable FOO of the concrete filtering example
is in the published environment and violates none of the three suppression
conditions. -/
theorem c2_variable_filtering_witness :
    ("FOO".data, "1".data)
        ∈ [("PATH".data, "p".data), ("PIXI_FOO".data, "x".data),
           ("HOME".data, "/h".data), ("FOO".data, "1".data)]
      ∧ ¬("FOO".data = "PATH".data ∨ "PIXI_".data <+: "FOO".data
          ∨ ∃ ex, (some ["HOME".data] : Option (List Str)) = some ex
              ∧ "FOO".data ∈ ex) :=
  (c2_variable_filtering.1
      [("PATH".data, "p".data), ("PIXI_FOO".data, "x".data),
       ("HOME".data, "/h".data), ("FOO".data, "1".data)]
      (some ["HOME".data]) "FOO".data "1".data).mp (by decide)

/-- Claim C3: if the captured environment has no CONDA_PREFIX variable, the
engine fails with the fatal error naming the environment being activated
(the name is an infix of the message), and no configuration record or link
is produced for the entry: both the record computation and the whole
publication step return that error. -/
theorem c3_missing_conda_fatal (entry : Entry) (env_vars : List (Str × Str))
    (ambient_path bin_dir : Str) (tramp_inode : Nat) (fs : FS)
    (h : env_vars.lookup "CONDA_PREFIX".data = none) :
    expose_configs entry env_vars ambient_path
        = .error (conda_missing_error (entry.environment.getD "default".data))
    ∧ expose_entry entry env_vars ambient_path bin_dir tramp_inode fs
        = .error (conda_missing_error (entry.environment.getD "default".data))
    ∧ (entry.environment.getD "default".data)
        <:+: conda_missing_error (entry.environment.getD "default".data) := by
  refine ⟨?_, ?_, ?_⟩
  · simp [expose_configs, h]
  · simp [expose_entry, expose_configs, h, Except.map]
  · exact ⟨"CONDA_PREFIX not found in shell-hook output for environment '".data,
      "'".data, by simp [conda_missing_error]⟩

/-- Witness for C3 at a concrete captured environment lacking CONDA_PREFIX. -/
theorem c3_missing_conda_fatal_witness :
    expose_configs ⟨"g".data, ["a".data], none, some "dev".data, none⟩
        [("PATH".data, "X".data)] "A".data
      = .error (conda_missing_error "dev".data) :=
  (c3_missing_conda_fatal ⟨"g".data, ["a".data], none, some "dev".data, none⟩
    [("PATH".data, "X".data)] "A".data "/b".data 7
    ⟨fun _ => none, fun _ => none⟩ (by decide)).1

/-- Claim C9: a CONDA_PREFIX variable that is present but bound to the empty
string is treated exactly like an absent one (the Python truthiness test
`if not conda_prefix` accepts both): the same fatal error naming the
environment is raised and nothing is published. -/
theorem c9_empty_conda_like_missing (entry : Entry)
    (env_vars : List (Str × Str)) (ambient_path bin_dir : Str)
    (tramp_inode : Nat) (fs : FS)
    (h : env_vars.lookup "CONDA_PREFIX".data = some []) :
    expose_configs entry env_vars ambient_path
        = .error (conda_missing_error (entry.environment.getD "default".data))
    ∧ expose_entry entry env_vars ambient_path bin_dir tramp_inode fs
        = .error (conda_missing_error (entry.environment.getD "default".data))
    ∧ (entry.environment.getD "default".data)
        <:+: conda_missing_error (entry.environment.getD "default".data) := by
  refine ⟨?_, ?_, ?_⟩
  · simp [expose_configs, h]
  · simp [expose_entry, expose_configs, h, Except.map]
  · exact ⟨"CONDA_PREFIX not found in shell-hook output for environment '".data,
      "'".data, by simp [conda_missing_error]⟩

/-- Witness for C9 at a concrete captured environment with an empty
CONDA_PREFIX value. -/
theorem c9_empty_conda_like_missing_witness :
    expose_configs ⟨"g".data, ["a".data], none, none, none⟩
        [("CONDA_PREFIX".data, []), ("PATH".data, "X".data)] "A".data
      = .error (conda_missing_error "default".data) :=
  (c9_empty_conda_like_missing ⟨"g".data, ["a".data], none, none, none⟩
    [("CONDA_PREFIX".data, []), ("PATH".data, "X".data)] "A".data "/b".data 7
    ⟨fun _ => none, fun _ => none⟩ (by decide)).1

/-! Helper lemmas about the pathlib embedding and the record computation. -/

/-- Appending one more component to a separator-joined list splices in one
more separator. -/
theorem intercalate_append_singleton (sep y : Str) (xs : List Str)
    (h : xs ≠ []) :
    sep.intercalate (xs ++ [y]) = sep.intercalate xs ++ sep ++ y := by
  induction xs with
  | nil => exact absurd rfl h
  | cons x rest ih =>
    cases rest with
    | nil => simp [List.intercalate, List.intersperse]
    | cons z t =>
      have ih2 := ih (by simp)
      simp only [List.cons_append, List.intercalate, List.intersperse_cons_cons,
        List.flatten_cons] at ih2 ⊢
      rw [ih2]
      simp [List.append_assoc]

/-- A plain file name (no separator, non-empty, not the dot segment) parses
to itself as a single path component. -/
theorem pSegs_single (app : Str) (h1 : ('/' : Char) ∉ app) (h2 : app ≠ [])
    (h3 : app ≠ ".".data) : pSegs app = [app] := by
  unfold pSegs
  rw [List.splitOn, List.splitOnP_eq_single]
  · simp [h2, h3]
  · intro x hx hb
    exact h1 (eq_of_beq hb ▸ hx)

/-- A non-empty string without the separator is a relative path. -/
theorem pAbs_eq_false (app : Str) (h1 : ('/' : Char) ∉ app) (h2 : app ≠ []) :
    pAbs app = false := by
  cases app with
  | nil => exact absurd rfl h2
  | cons c t =>
    simp only [pAbs, beq_eq_false_iff_ne]
    intro hc
    exact h1 (hc ▸ List.mem_cons_self c t)

/-- Rendering a path with one more trailing component appends a separator
and the component. -/
theorem renderPath_append_singleton (ab : Bool) (parts : List Str) (y : Str)
    (h : parts ≠ []) :
    renderPath ⟨ab, parts ++ [y]⟩ = renderPath ⟨ab, parts⟩ ++ '/' :: y := by
  have hi := intercalate_append_singleton ['/'] y parts h
  cases ab with
  | true => simp [renderPath, hi]
  | false =>
    have hne : (parts ++ [y]).isEmpty = false := by
      cases parts <;> simp at h ⊢
    have hne2 : parts.isEmpty = false := by
      cases parts <;> simp_all
    simp [renderPath, hne, hne2, hi]

/-- For a plain executable name and an already-normalized non-root active
prefix, the recorded executable path is literally
`conda_pfx ++ "/bin/" ++ app`. -/
theorem exePath_plain (conda_pfx app : Str)
    (h1 : ('/' : Char) ∉ app) (h2 : app ≠ []) (h3 : app ≠ ".".data)
    (hnorm : renderPath (parsePath conda_pfx) = conda_pfx)
    (hne : pSegs conda_pfx ≠ []) :
    exePath conda_pfx app = conda_pfx ++ "/bin/".data ++ app := by
  have happ : pSegs app = [app] := pSegs_single app h1 h2 h3
  have habs : pAbs app = false := pAbs_eq_false app h1 h2
  have hbin_abs : pAbs "bin".data = false := rfl
  have hbin : pSegs "bin".data = ["bin".data] := rfl
  unfold exePath PurePath.join parsePath
  rw [hbin_abs, habs]
  simp only [Bool.false_eq_true, if_false, hbin, happ]
  rw [renderPath_append_singleton (pAbs conda_pfx)
        (pSegs conda_pfx ++ ["bin".data]) app (by simp),
      renderPath_append_singleton (pAbs conda_pfx) (pSegs conda_pfx)
        "bin".data hne]
  rw [parsePath] at hnorm
  rw [hnorm]
  simp [List.append_assoc]

/-- Successful record computation forces a non-empty CONDA_PREFIX and fully
determines the records: one per app, sharing the PATH delta and the filtered
environment. -/
theorem expose_configs_ok_elim (entry : Entry) (env_vars : List (Str × Str))
    (ambient_path : Str) (cfgs : List (Str × TrampolineConfig))
    (hok : expose_configs entry env_vars ambient_path = .ok cfgs) :
    ∃ conda_pfx, env_vars.lookup "CONDA_PREFIX".data = some conda_pfx
      ∧ conda_pfx ≠ []
      ∧ cfgs = entry.apps.map (fun app =>
          (app, { exe := exePath conda_pfx app,
                  path_diff := path_diff
                    ((env_vars.lookup "PATH".data).getD []) ambient_path,
                  env := filter_env env_vars entry.exclude_env_vars })) := by
  unfold expose_configs at hok
  split at hok
  · exact Except.noConfusion hok
  · rename_i cp hl
    split at hok
    · exact Except.noConfusion hok
    · rename_i hcp
      injection hok with h
      refine ⟨cp, hl, ?_, h.symm⟩
      simpa using hcp

/-- Claim C6: the environment mapping of every record the engine produces
never contains PATH, never contains a reserved-namespace PIXI_ variable, and
never contains a variable of the supplied exclusion set. -/
theorem c6_published_env_invariant (entry : Entry)
    (env_vars : List (Str × Str)) (ambient_path : Str)
    (cfgs : List (Str × TrampolineConfig)) (app : Str)
    (cfg : TrampolineConfig) (k v : Str)
    (hok : expose_configs entry env_vars ambient_path = .ok cfgs)
    (hmem : (app, cfg) ∈ cfgs) (hkv : (k, v) ∈ cfg.env) :
    k ≠ "PATH".data ∧ ¬("PIXI_".data <+: k)
      ∧ ∀ ex, entry.exclude_env_vars = some ex → k ∉ ex := by
  obtain ⟨cp, -, -, hcfgs⟩ :=
    expose_configs_ok_elim entry env_vars ambient_path cfgs hok
  subst hcfgs
  obtain ⟨a, -, heq⟩ := List.mem_map.mp hmem
  obtain ⟨-, rfl⟩ := Prod.mk.injEq .. ▸ heq
  have h2 := (mem_filter_env_iff env_vars entry.exclude_env_vars k v).mp hkv
  refine ⟨?_, ?_, ?_⟩
  · exact fun hc => h2.2 (Or.inl hc)
  · exact fun hc => h2.2 (Or.inr (Or.inl hc))
  · exact fun ex hex hc => h2.2 (Or.inr (Or.inr ⟨ex, hex, hc⟩))

/-- Witness for C6: in a concrete successful run with exclusion set {HOME},
the published variable FOO is neither PATH nor reserved nor excluded. -/
theorem c6_published_env_invariant_witness :
    "FOO".data ≠ "PATH".data ∧ ¬("PIXI_".data <+: "FOO".data)
      ∧ ∀ ex, (⟨"g".data, ["a".data], none, none,
            some ["HOME".data]⟩ : Entry).exclude_env_vars = some ex →
          "FOO".data ∉ ex :=
  c6_published_env_invariant
    ⟨"g".data, ["a".data], none, none, some ["HOME".data]⟩
    [("CONDA_PREFIX".data, "/p".data), ("PATH".data, "X:A".data),
     ("HOME".data, "/h".data), ("FOO".data, "1".data)]
    "A".data
    [("a".data,
      { exe := "/p/bin/a".data, path_diff := "X".data,
        env := [("CONDA_PREFIX".data, "/p".data), ("FOO".data, "1".data)] })]
    "a".data
    { exe := "/p/bin/a".data, path_diff := "X".data,
      env := [("CONDA_PREFIX".data, "/p".data), ("FOO".data, "1".data)] }
    "FOO".data "1".data rfl (by decide) (by decide)

/-- Counterexample to claim C5 as stated: an executable name starting with
the path separator escapes the `<activePrefix>/bin/<name>` layout, because
`pathlib` treats the absolute final segment as a fresh root; with active
prefix "/p" and name "/e" the recorded executable path is "/e". -/
theorem c5_executable_path_counterexample :
    expose_configs ⟨"g".data, ["/e".data], none, none, none⟩
        [("CONDA_PREFIX".data, "/p".data)] []
      = .ok [("/e".data,
          { exe := "/e".data, path_diff := [],
            env := [("CONDA_PREFIX".data, "/p".data)] })]
    ∧ "/e".data ≠ "/p".data ++ "/bin/".data ++ "/e".data :=
  ⟨rfl, by decide⟩

/-- Claim C5 as amended: for every executable name that is a plain file name
(non-empty, without the path separator, and not the dot segment), and
whenever the active-prefix value is a normalized non-root path, the recorded
executablePath is exactly activePrefix ++ "/bin/" ++ name; a name beginning
with the separator instead resets the path and may leave the layout. -/
theorem c5_executable_path_invariant (entry : Entry)
    (env_vars : List (Str × Str)) (ambient_path : Str)
    (cfgs : List (Str × TrampolineConfig)) (app : Str)
    (cfg : TrampolineConfig) (conda_pfx : Str)
    (hok : expose_configs entry env_vars ambient_path = .ok cfgs)
    (hcp : env_vars.lookup "CONDA_PREFIX".data = some conda_pfx)
    (hmem : (app, cfg) ∈ cfgs)
    (h1 : ('/' : Char) ∉ app) (h2 : app ≠ []) (h3 : app ≠ ".".data)
    (hnorm : renderPath (parsePath conda_pfx) = conda_pfx)
    (hne : pSegs conda_pfx ≠ []) :
    cfg.exe = conda_pfx ++ "/bin/".data ++ app := by
  obtain ⟨cp, hl, -, hcfgs⟩ :=
    expose_configs_ok_elim entry env_vars ambient_path cfgs hok
  rw [hl] at hcp
  injection hcp with hcp
  subst hcp
  subst hcfgs
  obtain ⟨a, -, heq⟩ := List.mem_map.mp hmem
  obtain ⟨rfl, rfl⟩ := Prod.mk.injEq .. ▸ heq
  exact exePath_plain _ _ h1 h2 h3 hnorm hne

/-- Witness for the amended C5 at a concrete successful run. -/
theorem c5_executable_path_invariant_witness :
    ({ exe := "/p/bin/a".data, path_diff := "X".data,
       env := [("CONDA_PREFIX".data, "/p".data)] } : TrampolineConfig).exe
      = "/p".data ++ "/bin/".data ++ "a".data :=
  c5_executable_path_invariant
    ⟨"g".data, ["a".data], none, none, none⟩
    [("CONDA_PREFIX".data, "/p".data), ("PATH".data, "X:A".data)]
    "A".data
    [("a".data,
      { exe := "/p/bin/a".data, path_diff := "X".data,
        env := [("CONDA_PREFIX".data, "/p".data)] })]
    "a".data
    { exe := "/p/bin/a".data, path_diff := "X".data,
      env := [("CONDA_PREFIX".data, "/p".data)] }
    "/p".data rfl rfl (by decide) (by decide) (by decide) (by decide)
    (by decide) (by decide)

/-- Concrete stand-in for `yaml.safe_load` used in concrete evaluations:
"[]" loads as the empty sequence, "[a]" as the one-element sequence ["a"],
and anything else as a non-sequence scalar. -/
def yamlLoad0 : Str → Yaml := fun s =>
  if s = "[]".data then .ylist []
  else if s = "[a]".data then .ylist ["a".data]
  else .yother s

/-- Counterexample to claim C4 as stated: the code accepts an empty
executables sequence (no emptiness check exists), and a supplied exclusion
input whose YAML value is not a sequence is silently dropped instead of
raising a validation error. -/
theorem c4_entry_validation_counterexample :
    parse_input yamlLoad0 ⟨"g".data, "[]".data, [], [], []⟩
        = .ok ⟨"g".data, [], none, none, none⟩
    ∧ parse_input yamlLoad0 ⟨"g".data, "[a]".data, [], [], "x".data⟩
        = .ok ⟨"g".data, ["a".data], none, none, none⟩ :=
  ⟨rfl, rfl⟩

/-- Claim C4 as amended: parsing fails, naming the offending field, exactly
when the repository locator input is absent, or the executables input is
absent, or its YAML value is not a sequence; an empty executables sequence is
accepted, and an exclusion input that is not a YAML sequence is silently
ignored rather than rejected; in all other cases parsing succeeds and
returns the Entry with exactly the supplied fields. -/
theorem c4_entry_validation (yamlLoad : Str → Yaml) (i : Inputs) :
    (i.input_git.isEmpty = true →
      parse_input yamlLoad i = .error "'git' input is required".data)
    ∧ (i.input_git.isEmpty = false → i.input_apps.isEmpty = true →
      parse_input yamlLoad i = .error "'apps' input is required".data)
    ∧ (∀ s, i.input_git.isEmpty = false → i.input_apps.isEmpty = false →
      yamlLoad i.input_apps = .yother s →
      parse_input yamlLoad i = .error "'apps' input must be a YAML list".data)
    ∧ (∀ apps, i.input_git.isEmpty = false → i.input_apps.isEmpty = false →
      yamlLoad i.input_apps = .ylist apps →
      parse_input yamlLoad i = .ok
        ⟨i.input_git, apps,
         (if i.input_ref.isEmpty then none else some i.input_ref),
         (if i.input_environment.isEmpty then none
          else some i.input_environment),
         (if i.input_exclude_env_vars.isEmpty then none
          else
            match yamlLoad i.input_exclude_env_vars with
            | .ylist l => some l
            | .yother _ => none)⟩) := by
  refine ⟨fun h1 => ?_, fun h1 h2 => ?_, fun s h1 h2 hy => ?_,
    fun apps h1 h2 hy => ?_⟩
  · simp [parse_input, h1]
  · simp [parse_input, h1, h2]
  · simp [parse_input, h1, h2, hy]
  · simp [parse_input, h1, h2, hy]

/-- Witness for the amended C4 at a concrete accepting input with a ref. -/
theorem c4_entry_validation_witness :
    parse_input yamlLoad0 ⟨"g".data, "[a]".data, "r".data, [], []⟩
      = .ok ⟨"g".data, ["a".data], some "r".data, none, none⟩ := by
  have h := (c4_entry_validation yamlLoad0
      ⟨"g".data, "[a]".data, "r".data, [], []⟩).2.2.2
    ["a".data] (by decide) (by decide) (by decide)
  exact h

/-! Helper lemmas for the JSON round trip and the publication state. -/

/-- Reading back a JSON object whose values are all strings recovers the
original mapping. -/
theorem envStrs_map (l : List (Str × Str)) :
    envStrs (l.map (fun kv => (kv.1, .jstr kv.2))) = some l := by
  induction l with
  | nil => rfl
  | cons kv rest ih => cases kv; simp [envStrs, ih]

/-- Parsing is a left inverse of serialization on configuration records. -/
theorem configOfJson_configToJson (c : TrampolineConfig) :
    configOfJson (configToJson c) = some c := by
  cases c with
  | mk e pd env => simp [configToJson, configOfJson, List.lookup, envStrs_map]

/-- Claim C7: for every executable published, parsing the JSON value that
was written reproduces exactly the record that was constructed, whose fields
are the recorded executable path, the separator-joined path_diff string of
the PATH delta, and the filtered environment mapping. -/
theorem c7_config_roundtrip (entry : Entry) (env_vars : List (Str × Str))
    (ambient_path : Str) (cfgs : List (Str × TrampolineConfig)) (app : Str)
    (cfg : TrampolineConfig)
    (hok : expose_configs entry env_vars ambient_path = .ok cfgs)
    (hmem : (app, cfg) ∈ cfgs) :
    configOfJson (configToJson cfg) = some cfg
    ∧ cfg.path_diff
        = path_diff ((env_vars.lookup "PATH".data).getD []) ambient_path
    ∧ cfg.env = filter_env env_vars entry.exclude_env_vars
    ∧ ∃ conda_pfx, env_vars.lookup "CONDA_PREFIX".data = some conda_pfx
        ∧ cfg.exe = exePath conda_pfx app := by
  obtain ⟨cp, hl, -, hcfgs⟩ :=
    expose_configs_ok_elim entry env_vars ambient_path cfgs hok
  subst hcfgs
  obtain ⟨a, -, heq⟩ := List.mem_map.mp hmem
  obtain ⟨rfl, rfl⟩ := Prod.mk.injEq .. ▸ heq
  exact ⟨configOfJson_configToJson _, rfl, rfl, cp, hl, rfl⟩

/-- Witness for C7 at a concrete successful run. -/
theorem c7_config_roundtrip_witness :
    configOfJson (configToJson
        { exe := "/p/bin/a".data, path_diff := "X".data,
          env := [("CONDA_PREFIX".data, "/p".data)] })
      = some { exe := "/p/bin/a".data, path_diff := "X".data,
               env := [("CONDA_PREFIX".data, "/p".data)] } :=
  (c7_config_roundtrip
    ⟨"g".data, ["a".data], none, none, none⟩
    [("CONDA_PREFIX".data, "/p".data), ("PATH".data, "X:A".data)]
    "A".data
    [("a".data,
      { exe := "/p/bin/a".data, path_diff := "X".data,
        env := [("CONDA_PREFIX".data, "/p".data)] })]
    "a".data
    { exe := "/p/bin/a".data, path_diff := "X".data,
      env := [("CONDA_PREFIX".data, "/p".data)] }
    rfl (by decide)).1

/-- Content of the last configuration-file write targeting path p during one
publication run (later writes supersede earlier ones). -/
def lastConfigWrite (bin_dir : Str) (cfgs : List (Str × TrampolineConfig))
    (p : Str) : Option JsonVal :=
  match cfgs with
  | [] => none
  | item :: rest =>
    match lastConfigWrite bin_dir rest p with
    | some v => some v
    | none =>
      if p = config_file_path bin_dir item.1 then some (configToJson item.2)
      else none

/-- Whether some link write of the run targets path p. -/
def link_written (bin_dir : Str) (cfgs : List (Str × TrampolineConfig))
    (p : Str) : Bool :=
  cfgs.any (fun item => p == link_file_path bin_dir item.1)

/-- Unfolding lemma: one publication step, then the rest of the loop. -/
theorem publish_configs_cons (bin_dir : Str) (tramp_inode : Nat)
    (item : Str × TrampolineConfig) (rest : List (Str × TrampolineConfig))
    (fs : FS) :
    publish_configs bin_dir tramp_inode (item :: rest) fs =
      publish_configs bin_dir tramp_inode rest
        { files := setMap fs.files (config_file_path bin_dir item.1)
            (configToJson item.2),
          links := setMap fs.links (link_file_path bin_dir item.1)
            tramp_inode } := rfl

/-- Unfolding lemma: the last write among one more configuration write. -/
theorem lastConfigWrite_cons (bin_dir : Str) (item : Str × TrampolineConfig)
    (rest : List (Str × TrampolineConfig)) (p : Str) :
    lastConfigWrite bin_dir (item :: rest) p =
      match lastConfigWrite bin_dir rest p with
      | some v => some v
      | none =>
        if p = config_file_path bin_dir item.1 then some (configToJson item.2)
        else none := rfl

/-- File contents after publication: the last write targeting the path, or
the prior contents when the run never writes it. -/
theorem publish_files_eq (bin_dir : Str) (tramp_inode : Nat)
    (cfgs : List (Str × TrampolineConfig)) (fs : FS) (p : Str) :
    (publish_configs bin_dir tramp_inode cfgs fs).files p =
      match lastConfigWrite bin_dir cfgs p with
      | some v => some v
      | none => fs.files p := by
  induction cfgs generalizing fs with
  | nil => rfl
  | cons item rest ih =>
    rw [publish_configs_cons, ih, lastConfigWrite_cons]
    cases h : lastConfigWrite bin_dir rest p with
    | some v => rfl
    | none =>
      by_cases hp : p = config_file_path bin_dir item.1
      · simp only [setMap, if_pos hp]
      · simp only [setMap, if_neg hp]

/-- Links after publication: the trampoline inode for every path the run
links, the prior state elsewhere. -/
theorem publish_links_eq (bin_dir : Str) (tramp_inode : Nat)
    (cfgs : List (Str × TrampolineConfig)) (fs : FS) (p : Str) :
    (publish_configs bin_dir tramp_inode cfgs fs).links p =
      if link_written bin_dir cfgs p then some tramp_inode else fs.links p := by
  induction cfgs generalizing fs with
  | nil => rfl
  | cons item rest ih =>
    rw [publish_configs_cons, ih]
    by_cases hp : p = link_file_path bin_dir item.1
    · simp [link_written, hp, setMap]
    · have hb : (p == link_file_path bin_dir item.1) = false :=
        beq_eq_false_iff_ne.mpr hp
      simp only [link_written, List.any_cons, setMap, if_neg hp, hb,
        Bool.false_or]

/-- Every published app's link is touched by the run. -/
theorem link_written_of_mem (bin_dir : Str) (app : Str)
    (cfg : TrampolineConfig) (cfgs : List (Str × TrampolineConfig))
    (h : (app, cfg) ∈ cfgs) :
    link_written bin_dir cfgs (link_file_path bin_dir app) = true := by
  induction cfgs with
  | nil => cases h
  | cons item rest ih =>
    rcases List.mem_cons.mp h with h1 | h2
    · subst h1; simp [link_written]
    · have := ih h2
      simp [link_written] at this ⊢
      exact Or.inr this

/-- Claim C8: publishing the records of the same Entry twice with unchanged
inputs leaves exactly the state of one publication: every configuration file
has identical contents after one and after two runs, and every published
name's dispatch link points at the trampoline binary's inode after either
run. -/
theorem c8_publication_idempotent (entry : Entry)
    (env_vars : List (Str × Str)) (ambient_path bin_dir : Str)
    (tramp_inode : Nat) (fs : FS) (cfgs : List (Str × TrampolineConfig))
    (hok : expose_configs entry env_vars ambient_path = .ok cfgs) :
    (∀ p, (publish_configs bin_dir tramp_inode cfgs
          (publish_configs bin_dir tramp_inode cfgs fs)).files p
        = (publish_configs bin_dir tramp_inode cfgs fs).files p)
    ∧ (∀ p, (publish_configs bin_dir tramp_inode cfgs
          (publish_configs bin_dir tramp_inode cfgs fs)).links p
        = (publish_configs bin_dir tramp_inode cfgs fs).links p)
    ∧ (∀ app cfg, (app, cfg) ∈ cfgs →
        (publish_configs bin_dir tramp_inode cfgs fs).links
            (link_file_path bin_dir app) = some tramp_inode
        ∧ (publish_configs bin_dir tramp_inode cfgs
            (publish_configs bin_dir tramp_inode cfgs fs)).links
            (link_file_path bin_dir app) = some tramp_inode) := by
  refine ⟨fun p => ?_, fun p => ?_, fun app cfg hmem => ?_⟩
  · rw [publish_files_eq, publish_files_eq]
    cases hlc : lastConfigWrite bin_dir cfgs p <;> simp [hlc]
  · rw [publish_links_eq, publish_links_eq]
    cases hlw : link_written bin_dir cfgs p <;> simp [hlw]
  · have hw := link_written_of_mem bin_dir app cfg cfgs hmem
    constructor
    · rw [publish_links_eq, hw]; rfl
    · rw [publish_links_eq, hw]; rfl

/-- Witness for C8: concrete double publication of a one-app entry links the
app at the trampoline inode both times. -/
theorem c8_publication_idempotent_witness :
    (publish_configs "/b".data 7
        [("a".data,
          { exe := "/p/bin/a".data, path_diff := "X".data,
            env := [("CONDA_PREFIX".data, "/p".data)] })]
        ⟨fun _ => none, fun _ => none⟩).links
        (link_file_path "/b".data "a".data) = some 7
    ∧ (publish_configs "/b".data 7
        [("a".data,
          { exe := "/p/bin/a".data, path_diff := "X".data,
            env := [("CONDA_PREFIX".data, "/p".data)] })]
        (publish_configs "/b".data 7
          [("a".data,
            { exe := "/p/bin/a".data, path_diff := "X".data,
              env := [("CONDA_PREFIX".data, "/p".data)] })]
          ⟨fun _ => none, fun _ => none⟩)).links
        (link_file_path "/b".data "a".data) = some 7 :=
  (c8_publication_idempotent
    ⟨"g".data, ["a".data], none, none, none⟩
    [("CONDA_PREFIX".data, "/p".data), ("PATH".data, "X:A".data)]
    "A".data "/b".data 7 ⟨fun _ => none, fun _ => none⟩
    [("a".data,
      { exe := "/p/bin/a".data, path_diff := "X".data,
        env := [("CONDA_PREFIX".data, "/p".data)] })]
    rfl).2.2 "a".data
    { exe := "/p/bin/a".data, path_diff := "X".data,
      env := [("CONDA_PREFIX".data, "/p".data)] }
    (by decide)
